import Mathlib

/-!
Verification of the hash-locked-envelopes contract (src/src/lib.rs).

The contract state is a set of instance-storage keys (owner, guardians,
recovery threshold, recovery delay, envelopes map); each is modelled as an
`Option` since a key may be absent before it is ever written.  Addresses,
32-byte identifiers and hashes are opaque values compared only for equality,
so they are modelled as `Nat`.  Machine integers are modelled as `Int`/`Nat`
with explicit two's-complement wrapping (`wrap128` for `i128` arithmetic,
`i64ofU64` for the `u64 as i64` casts the source performs on timestamps).
Rust `/` on `i128` truncates toward zero, hence `Int.tdiv`.
Each entry point returns `Except Err (result × new state)`; a panic in the
source is an `Err`, and a failed call leaves the state unchanged
(the host rolls back the invocation).
-/

set_option maxRecDepth 8192

namespace HashLockedEnvelopes

abbrev Address := Nat
abbrev EnvId := Nat
abbrev Bytes32 := Nat

/-- Two's-complement wrap of an integer into the `i128` range,
the semantics of overflowing `i128` arithmetic in the compiled contract. -/
def wrap128 (x : Int) : Int := (x + 2 ^ 127) % 2 ^ 128 - 2 ^ 127

/-- The `u64 as i64` reinterpret cast: values below `2^63` are unchanged,
larger ones become negative. -/
def i64ofU64 (n : Nat) : Int := ((n : Int) + 2 ^ 63) % 2 ^ 64 - 2 ^ 63

/-- `x` lies in the representable range of `i128`. -/
def i128Fits (x : Int) : Prop := -(2 ^ 127) ≤ x ∧ x < 2 ^ 127

instance (x : Int) : Decidable (i128Fits x) := by
  unfold i128Fits; infer_instance

/-- `VestSlice { ts: i64, bp: u32 }` from the source. -/
structure VestSlice where
  ts : Int
  bp : Nat
deriving DecidableEq

/-- The `Envelope` record from the source; `unlock_ts`/`expiry_ts` are the
stored `Option<i64>` values. -/
structure Envelope where
  beneficiary : Address
  amount : Int
  secret_hash : Bytes32
  unlock_ts : Option Int
  vesting : List VestSlice
  claimed : Int
  expiry_ts : Option Int
  revoked : Bool
deriving DecidableEq

/-- Instance storage: one field per storage key, `none` when the key was
never written. -/
structure ContractState where
  owner : Option Address
  guardians : Option (List Address)
  recovery_threshold : Option Nat
  recovery_delay : Option Nat
  envelopes : Option (List (EnvId × Envelope))
deriving DecidableEq

/-- The panic reasons of the source, one constructor per panic message. -/
inductive Err where
  | alreadyInitialized
  | ownerNotSet
  | unauthorized
  | invalidAmount
  | duplicateEnvelope
  | notFound
  | revoked
  | invalidSecret
  | locked
  | alreadyRevoked
  | fullyClaimed
  | noExpirySet
  | notYetExpired
deriving DecidableEq

/-- `Map::get` of the soroban map, modelled on an association list. -/
def mapGet : List (EnvId × Envelope) → EnvId → Option Envelope
  | [], _ => none
  | (k, v) :: rest, i => if k = i then some v else mapGet rest i

/-- `Map::set`: replace the binding when present, append otherwise. -/
def mapSet : List (EnvId × Envelope) → EnvId → Envelope → List (EnvId × Envelope)
  | [], i, e => [(i, e)]
  | (k, v) :: rest, i, e => if k = i then (i, e) :: rest else (k, v) :: mapSet rest i e

/-- `Contract::envelopes_map`: the stored map, defaulting to empty when the
`ENVS` key is absent. -/
def envelopesMap (s : ContractState) : List (EnvId × Envelope) := s.envelopes.getD []

/-- `u32::saturating_add`. -/
def satAddU32 (a b : Nat) : Nat := min (a + b) (2 ^ 32 - 1)

/-- The summation loop of `claim` (lines 138-143): fold over the schedule,
saturating-adding `bp` for each slice whose `ts ≤ now_ts`. -/
def sumBpLoop : List VestSlice → Int → Nat → Nat
  | [], _, acc => acc
  | vs :: rest, nowTs, acc =>
      sumBpLoop rest nowTs (if vs.ts ≤ nowTs then satAddU32 acc vs.bp else acc)

/-- The vested-fraction computation inlined in `claim` (lines 133-147):
10000 for an empty schedule, otherwise the saturating sum over passed
slices clamped to 10000. -/
def vestedFraction (vesting : List VestSlice) (nowTs : Int) : Nat :=
  if vesting.isEmpty then 10000
  else if sumBpLoop vesting nowTs 0 > 10000 then 10000
  else sumBpLoop vesting nowTs 0

/-- Saturating sum of a list of basis points (u32 semantics). -/
def satSum (bps : List Nat) : Nat := bps.foldl satAddU32 0

/-- Line 149: `(amount * sum_bp as i128) / 10_000i128` with wrapping
multiplication and truncating division. -/
def vestedAmountI128 (amount : Int) (fraction : Nat) : Int :=
  Int.tdiv (wrap128 (amount * (fraction : Int))) 10000

/-- `create_envelope`.  `require_auth` on the stored owner is modelled as
equality of `caller` with the owner; `unlock_ts`/`expiry_ts` arrive as
`Option<u64>` (`Option Nat`) and are stored through the `as i64` cast. -/
def create_envelope (s : ContractState) (caller : Address) (envelope_id : EnvId)
    (beneficiary : Address) (amount : Int) (secret_hash : Bytes32)
    (unlock_ts : Option Nat) (vesting : List VestSlice) (expiry_ts : Option Nat) :
    Except Err (Unit × ContractState) :=
  match s.owner with
  | none => .error .ownerNotSet
  | some o =>
    if caller ≠ o then .error .unauthorized
    else if amount ≤ 0 then .error .invalidAmount
    else
      let m := envelopesMap s
      if (mapGet m envelope_id).isSome then .error .duplicateEnvelope
      else
        let e : Envelope :=
          { beneficiary := beneficiary
            amount := amount
            secret_hash := secret_hash
            unlock_ts := unlock_ts.map i64ofU64
            vesting := vesting
            claimed := 0
            expiry_ts := expiry_ts.map i64ofU64
            revoked := false }
        .ok ((), { s with envelopes := some (mapSet m envelope_id e) })

/-- `claim`.  The checks are in source order: lookup, revoked, beneficiary
authorization, secret, time lock; then the vesting arithmetic.  `now` is the
ledger timestamp (`u64`). -/
def claim (s : ContractState) (caller : Address) (envelope_id : EnvId)
    (provided_secret_hash : Bytes32) (now : Nat) : Except Err (Int × ContractState) :=
  let m := envelopesMap s
  match mapGet m envelope_id with
  | none => .error .notFound
  | some e =>
    if e.revoked then .error .revoked
    else if caller ≠ e.beneficiary then .error .unauthorized
    else if provided_secret_hash ≠ e.secret_hash then .error .invalidSecret
    else
      let body : Except Err (Int × ContractState) :=
        let fraction := vestedFraction e.vesting (i64ofU64 now)
        let vested := vestedAmountI128 e.amount fraction
        if vested ≤ e.claimed then .ok (0, s)
        else
          let delta := wrap128 (vested - e.claimed)
          let e2 := { e with claimed := vested }
          .ok (delta, { s with envelopes := some (mapSet m envelope_id e2) })
      match e.unlock_ts with
      | some u => if i64ofU64 now < u then .error .locked else body
      | none => body

/-- `revoke_envelope`. -/
def revoke_envelope (s : ContractState) (caller : Address) (envelope_id : EnvId) :
    Except Err (Unit × ContractState) :=
  match s.owner with
  | none => .error .ownerNotSet
  | some o =>
    if caller ≠ o then .error .unauthorized
    else
      let m := envelopesMap s
      match mapGet m envelope_id with
      | none => .error .notFound
      | some e =>
        if e.revoked then .error .alreadyRevoked
        else if e.amount ≤ e.claimed then .error .fullyClaimed
        else .ok ((), { s with envelopes := some (mapSet m envelope_id { e with revoked := true }) })

/-- `refund_owner`.  Check order from the source: owner auth, lookup, expiry
presence, expiry time, revoked; then the refund arithmetic. -/
def refund_owner (s : ContractState) (caller : Address) (envelope_id : EnvId) (now : Nat) :
    Except Err (Int × ContractState) :=
  match s.owner with
  | none => .error .ownerNotSet
  | some o =>
    if caller ≠ o then .error .unauthorized
    else
      let m := envelopesMap s
      match mapGet m envelope_id with
      | none => .error .notFound
      | some e =>
        match e.expiry_ts with
        | none => .error .noExpirySet
        | some exp =>
          if i64ofU64 now < exp then .error .notYetExpired
          else if e.revoked then .error .alreadyRevoked
          else
            let unclaimed := wrap128 (e.amount - e.claimed)
            if unclaimed ≤ 0 then .ok (0, s)
            else
              let e2 := { e with claimed := e.amount, revoked := true }
              .ok (unclaimed, { s with envelopes := some (mapSet m envelope_id e2) })

/-- `get_envelope`. -/
def get_envelope (s : ContractState) (envelope_id : EnvId) : Except Err Envelope :=
  match mapGet (envelopesMap s) envelope_id with
  | none => .error .notFound
  | some e => .ok e

/-- The four registry-mutating entry points, for reasoning about sequences
of calls. -/
inductive Op where
  | createOp (caller : Address) (i : EnvId) (b : Address) (a : Int) (sh : Bytes32)
      (u : Option Nat) (v : List VestSlice) (ex : Option Nat)
  | claimOp (caller : Address) (i : EnvId) (sec : Bytes32) (now : Nat)
  | revokeOp (caller : Address) (i : EnvId)
  | refundOp (caller : Address) (i : EnvId) (now : Nat)

/-- Run one entry point; a failed call leaves the state unchanged (the host
rolls the invocation back). -/
def applyOp (s : ContractState) : Op → ContractState
  | .createOp c i b a sh u v ex =>
      match create_envelope s c i b a sh u v ex with
      | .ok (_, s') => s'
      | .error _ => s
  | .claimOp c i sec now =>
      match claim s c i sec now with
      | .ok (_, s') => s'
      | .error _ => s
  | .revokeOp c i =>
      match revoke_envelope s c i with
      | .ok (_, s') => s'
      | .error _ => s
  | .refundOp c i now =>
      match refund_owner s c i now with
      | .ok (_, s') => s'
      | .error _ => s

/-- Run a sequence of entry points. -/
def applyOps (s : ContractState) (ops : List Op) : ContractState := ops.foldl applyOp s

/-- Per-envelope invariant of the spec: `0 ≤ claimed ≤ amount`. -/
def EnvOk (e : Envelope) : Prop := 0 ≤ e.claimed ∧ e.claimed ≤ e.amount

/-- Registry-wide invariant: every stored envelope satisfies `EnvOk`. -/
def RegOk (s : ContractState) : Prop :=
  ∀ i e, mapGet (envelopesMap s) i = some e → EnvOk e

/-- The state before `initialize` has ever run: no storage key exists. -/
def Uninitialized (s : ContractState) : Prop := s.owner = none ∧ s.envelopes = none

/-! ### Arithmetic helper lemmas -/

theorem wrap128_eq_of_fits {x : Int} (h1 : -(2 ^ 127) ≤ x) (h2 : x < 2 ^ 127) :
    wrap128 x = x := by
  unfold wrap128
  omega

theorem wrap128_le_of_nonneg {x : Int} (h : 0 ≤ x) : wrap128 x ≤ x := by
  unfold wrap128
  omega

theorem i64ofU64_eq_of_lt {n : Nat} (h : n < 2 ^ 63) : i64ofU64 n = n := by
  unfold i64ofU64
  omega

/-- `tdiv` by 10000 is bounded by `ediv` by 10000 of any larger nonneg bound. -/
theorem tdiv_ten_thousand_le {w x : Int} (hw : w ≤ x) (hx : 0 ≤ x) :
    Int.tdiv w 10000 ≤ x / 10000 := by
  rcases le_or_lt 0 w with hw0 | hw0
  · rw [Int.tdiv_eq_ediv hw0 (by norm_num)]
    exact Int.ediv_le_ediv (by norm_num) hw
  · have h1 : Int.tdiv (-w) 10000 = -Int.tdiv w 10000 := Int.neg_tdiv w 10000
    have h2 : 0 ≤ Int.tdiv (-w) 10000 := Int.tdiv_nonneg (by omega) (by norm_num)
    have h3 : 0 ≤ x / 10000 := Int.ediv_nonneg hx (by norm_num)
    omega

/-! ### Map helper lemmas -/

theorem mapGet_mapSet_self (m : List (EnvId × Envelope)) (i : EnvId) (e : Envelope) :
    mapGet (mapSet m i e) i = some e := by
  induction m with
  | nil => simp [mapGet, mapSet]
  | cons kv rest ih =>
    obtain ⟨k, v⟩ := kv
    by_cases h : k = i
    · simp [mapGet, mapSet, h]
    · simp [mapGet, mapSet, h, ih]

theorem mapGet_mapSet_ne (m : List (EnvId × Envelope)) {i j : EnvId} (e : Envelope)
    (h : j ≠ i) : mapGet (mapSet m i e) j = mapGet m j := by
  induction m with
  | nil => simp [mapGet, mapSet, Ne.symm h]
  | cons kv rest ih =>
    obtain ⟨k, v⟩ := kv
    by_cases hk : k = i
    · subst hk
      simp [mapGet, mapSet, Ne.symm h]
    · simp [mapGet, mapSet, hk, ih]

/-! ### Vesting evaluator lemmas -/

theorem satAddU32_le_max (a b : Nat) : satAddU32 a b ≤ 2 ^ 32 - 1 := by
  unfold satAddU32
  omega

/-- The conditional summation loop is the saturating fold over the filtered
basis points. -/
theorem sumBpLoop_eq_foldl (l : List VestSlice) (t : Int) (acc : Nat) :
    sumBpLoop l t acc = ((l.filter (fun vs => vs.ts ≤ t)).map VestSlice.bp).foldl satAddU32 acc := by
  induction l generalizing acc with
  | nil => simp [sumBpLoop]
  | cons vs rest ih =>
    by_cases h : vs.ts ≤ t
    · simp [sumBpLoop, h, ih]
    · simp [sumBpLoop, h, ih]

/-- The saturating fold is the plain sum clamped at `u32::MAX`. -/
theorem foldl_satAddU32_eq (l : List Nat) (acc : Nat) (hacc : acc ≤ 2 ^ 32 - 1) :
    l.foldl satAddU32 acc = min (acc + l.sum) (2 ^ 32 - 1) := by
  induction l generalizing acc with
  | nil =>
    simp only [List.foldl_nil, List.sum_nil, Nat.add_zero]
    omega
  | cons b rest ih =>
    have h1 := ih (satAddU32 acc b) (satAddU32_le_max acc b)
    simp only [List.foldl_cons, List.sum_cons, h1]
    unfold satAddU32
    omega

theorem satSum_eq_min (l : List Nat) : satSum l = min l.sum (2 ^ 32 - 1) := by
  unfold satSum
  rw [foldl_satAddU32_eq l 0 (by norm_num)]
  omega

/-- Closed form of the evaluator on a nonempty schedule: the plain sum of
the passed basis points, clamped to 10000. -/
theorem vestedFraction_eq_min (l : List VestSlice) (t : Int) (h : l ≠ []) :
    vestedFraction l t = min ((l.filter (fun vs => vs.ts ≤ t)).map VestSlice.bp).sum 10000 := by
  unfold vestedFraction
  rw [if_neg (by simpa [List.isEmpty_iff] using h)]
  rw [sumBpLoop_eq_foldl, foldl_satAddU32_eq _ 0 (by norm_num)]
  split <;> omega

theorem vestedFraction_le (l : List VestSlice) (t : Int) : vestedFraction l t ≤ 10000 := by
  rcases eq_or_ne l [] with h | h
  · subst h
    simp [vestedFraction]
  · rw [vestedFraction_eq_min l t h]
    omega

/-- Sums of mapped filters grow when the filter predicate weakens. -/
theorem filter_map_sum_mono (l : List VestSlice) (p q : VestSlice → Bool)
    (hpq : ∀ vs, p vs = true → q vs = true) :
    ((l.filter p).map VestSlice.bp).sum ≤ ((l.filter q).map VestSlice.bp).sum := by
  induction l with
  | nil => simp
  | cons vs rest ih =>
    by_cases hp : p vs = true
    · simp [List.filter_cons, hp, hpq vs hp]
      omega
    · by_cases hq : q vs = true
      · simp [List.filter_cons, hp, hq]
        omega
      · simp [List.filter_cons, hp, hq, ih]

theorem vestedFraction_mono (l : List VestSlice) {t₁ t₂ : Int} (h : t₁ ≤ t₂) :
    vestedFraction l t₁ ≤ vestedFraction l t₂ := by
  rcases eq_or_ne l [] with hl | hl
  · subst hl
    simp [vestedFraction]
  · rw [vestedFraction_eq_min l t₁ hl, vestedFraction_eq_min l t₂ hl]
    have hs := filter_map_sum_mono l (fun vs => vs.ts ≤ t₁) (fun vs => vs.ts ≤ t₂)
      (fun vs hp => by
        simp only [decide_eq_true_eq] at hp ⊢
        exact le_trans hp h)
    omega

/-- The evaluator is invariant under permutation of the schedule. -/
theorem vestedFraction_perm {l₁ l₂ : List VestSlice} (hp : l₁.Perm l₂) (t : Int) :
    vestedFraction l₁ t = vestedFraction l₂ t := by
  rcases eq_or_ne l₁ [] with h | h
  · subst h
    rw [← hp.nil_eq]
  · have h₂ : l₂ ≠ [] := by
      intro hnil
      exact h (List.Perm.eq_nil (hnil ▸ hp))
    rw [vestedFraction_eq_min l₁ t h, vestedFraction_eq_min l₂ t h₂]
    have hs : ((l₁.filter (fun vs => vs.ts ≤ t)).map VestSlice.bp).sum
        = ((l₂.filter (fun vs => vs.ts ≤ t)).map VestSlice.bp).sum :=
      List.Perm.sum_eq (List.Perm.map VestSlice.bp (List.Perm.filter _ hp))
    rw [hs]

/-- The vested amount never exceeds the envelope amount when the amount is
nonnegative and the fraction is at most 10000. -/
theorem vestedAmountI128_le {amount : Int} {f : Nat} (h0 : 0 ≤ amount) (hf : f ≤ 10000) :
    vestedAmountI128 amount f ≤ amount := by
  unfold vestedAmountI128
  have hprod : 0 ≤ amount * (f : Int) := by positivity
  have h1 : wrap128 (amount * (f : Int)) ≤ amount * (f : Int) := wrap128_le_of_nonneg hprod
  have h2 : Int.tdiv (wrap128 (amount * (f : Int))) 10000 ≤ amount * (f : Int) / 10000 :=
    tdiv_ten_thousand_le h1 hprod
  have h3 : amount * (f : Int) / 10000 ≤ amount := by
    have hb : amount * (f : Int) ≤ amount * 10000 := by
      apply mul_le_mul_of_nonneg_left _ h0
      exact_mod_cast hf
    calc amount * (f : Int) / 10000 ≤ amount * 10000 / 10000 :=
          Int.ediv_le_ediv (by norm_num) hb
      _ = amount := Int.mul_ediv_cancel amount (by norm_num)
  exact le_trans h2 h3

/-! ### Shape of successful invocations -/

/-- A successful `create_envelope` passed owner auth, positivity and
freshness, and only inserted the new envelope. -/
theorem create_ok_shape {s : ContractState} {c : Address} {i : EnvId} {b : Address}
    {a : Int} {sh : Bytes32} {u : Option Nat} {v : List VestSlice} {ex : Option Nat}
    {r : Unit} {s' : ContractState}
    (h : create_envelope s c i b a sh u v ex = .ok (r, s')) :
    ∃ o, s.owner = some o ∧ c = o ∧ 0 < a ∧ mapGet (envelopesMap s) i = none ∧
      s' = { s with envelopes := some (mapSet (envelopesMap s) i
        ⟨b, a, sh, u.map i64ofU64, v, 0, ex.map i64ofU64, false⟩) } := by
  rcases ho : s.owner with _ | o
  · simp [create_envelope, ho] at h
  by_cases hc : c = o
  · by_cases ha : a ≤ 0
    · simp [create_envelope, ho, hc, ha] at h
    · rcases hget : mapGet (envelopesMap s) i with _ | e
      · simp [create_envelope, ho, hc, ha, hget] at h
        exact ⟨o, rfl, hc, by omega, rfl, h.symm⟩
      · simp [create_envelope, ho, hc, ha, hget] at h
  · simp [create_envelope, ho, hc] at h

/-- A successful `claim` found an unrevoked envelope and either changed
nothing or only raised its `claimed` to the vested amount. -/
theorem claim_ok_shape {s : ContractState} {c : Address} {i : EnvId} {sec : Bytes32}
    {now : Nat} {r : Int} {s' : ContractState}
    (h : claim s c i sec now = .ok (r, s')) :
    ∃ e, mapGet (envelopesMap s) i = some e ∧ e.revoked = false ∧
      (s' = s ∨
        (e.claimed < vestedAmountI128 e.amount (vestedFraction e.vesting (i64ofU64 now)) ∧
          s' = { s with envelopes := some (mapSet (envelopesMap s) i
            { e with claimed :=
                vestedAmountI128 e.amount (vestedFraction e.vesting (i64ofU64 now)) }) })) := by
  rcases hget : mapGet (envelopesMap s) i with _ | e
  · simp [claim, hget] at h
  by_cases hrev : e.revoked
  · simp [claim, hget, hrev] at h
  have hrevf : e.revoked = false := by simpa using hrev
  refine ⟨e, rfl, hrevf, ?_⟩
  by_cases hben : c = e.beneficiary
  · by_cases hsec : sec = e.secret_hash
    · rcases hu : e.unlock_ts with _ | u
      · by_cases hv : vestedAmountI128 e.amount (vestedFraction e.vesting (i64ofU64 now))
            ≤ e.claimed
        · simp [claim, hget, hrevf, hben, hsec, hu, hv] at h
          exact .inl h.2.symm
        · simp [claim, hget, hrevf, hben, hsec, hu, hv] at h
          refine .inr ⟨by omega, ?_⟩
          rw [← h.2]
          simp [hu, hrevf]
      · by_cases hlt : i64ofU64 now < u
        · simp [claim, hget, hrevf, hben, hsec, hu, hlt] at h
        · by_cases hv : vestedAmountI128 e.amount (vestedFraction e.vesting (i64ofU64 now))
              ≤ e.claimed
          · simp [claim, hget, hrevf, hben, hsec, hu, hlt, hv] at h
            exact .inl h.2.symm
          · simp [claim, hget, hrevf, hben, hsec, hu, hlt, hv] at h
            refine .inr ⟨by omega, ?_⟩
            rw [← h.2]
            simp [hu, hrevf]
    · simp [claim, hget, hrevf, hben, hsec] at h
  · simp [claim, hget, hrevf, hben] at h

/-- A successful `revoke_envelope` passed owner auth, found an unrevoked,
not fully claimed envelope, and only set its `revoked` flag. -/
theorem revoke_ok_shape {s : ContractState} {c : Address} {i : EnvId}
    {r : Unit} {s' : ContractState}
    (h : revoke_envelope s c i = .ok (r, s')) :
    ∃ o e, s.owner = some o ∧ c = o ∧ mapGet (envelopesMap s) i = some e ∧
      e.revoked = false ∧ e.claimed < e.amount ∧
      s' = { s with envelopes := some (mapSet (envelopesMap s) i
        { e with revoked := true }) } := by
  rcases ho : s.owner with _ | o
  · simp [revoke_envelope, ho] at h
  by_cases hc : c = o
  · rcases hget : mapGet (envelopesMap s) i with _ | e
    · simp [revoke_envelope, ho, hc, hget] at h
    · by_cases hrev : e.revoked
      · simp [revoke_envelope, ho, hc, hget, hrev] at h
      · by_cases hfull : e.amount ≤ e.claimed
        · simp [revoke_envelope, ho, hc, hget, hrev, hfull] at h
        · simp [revoke_envelope, ho, hc, hget, hrev, hfull] at h
          exact ⟨o, e, rfl, hc, rfl, by simpa using hrev, by omega, h.symm⟩
  · simp [revoke_envelope, ho, hc] at h

/-- A successful `refund_owner` found an unrevoked envelope and either
changed nothing or only closed that envelope. -/
theorem refund_ok_shape {s : ContractState} {c : Address} {i : EnvId} {now : Nat}
    {r : Int} {s' : ContractState}
    (h : refund_owner s c i now = .ok (r, s')) :
    ∃ e, mapGet (envelopesMap s) i = some e ∧ e.revoked = false ∧
      (s' = s ∨ s' = { s with envelopes := some (mapSet (envelopesMap s) i
        { e with claimed := e.amount, revoked := true }) }) := by
  rcases ho : s.owner with _ | o
  · simp [refund_owner, ho] at h
  by_cases hc : c = o
  · rcases hget : mapGet (envelopesMap s) i with _ | e
    · simp [refund_owner, ho, hc, hget] at h
    · rcases hexp : e.expiry_ts with _ | exp
      · simp [refund_owner, ho, hc, hget, hexp] at h
      · by_cases hlt : i64ofU64 now < exp
        · simp [refund_owner, ho, hc, hget, hexp, hlt] at h
        · by_cases hrev : e.revoked
          · simp [refund_owner, ho, hc, hget, hexp, hlt, hrev] at h
          · have hrevf : e.revoked = false := by simpa using hrev
            by_cases hun : wrap128 (e.amount - e.claimed) ≤ 0
            · simp [refund_owner, ho, hc, hget, hexp, hlt, hrevf, hun] at h
              exact ⟨e, rfl, hrevf, .inl h.2.symm⟩
            · simp [refund_owner, ho, hc, hget, hexp, hlt, hrevf, hun] at h
              refine ⟨e, rfl, hrevf, .inr ?_⟩
              rw [← h.2]
              simp [hexp, hrevf]
  · simp [refund_owner, ho, hc] at h

/-- Updating one envelope that satisfies the invariant keeps the registry
invariant. -/
theorem RegOk_set {s : ContractState} (hs : RegOk s) {i : EnvId} {e : Envelope}
    (he : EnvOk e) :
    RegOk { s with envelopes := some (mapSet (envelopesMap s) i e) } := by
  intro j e' hj
  simp only [envelopesMap, Option.getD_some] at hj
  by_cases hji : j = i
  · subst hji
    rw [mapGet_mapSet_self] at hj
    cases hj
    exact he
  · rw [mapGet_mapSet_ne _ _ hji] at hj
    exact hs j e' hj

/-- One entry point cannot disturb an already revoked envelope: any call
either fails (leaving the state unchanged) or mutates a different
identifier. -/
theorem applyOp_preserves_revoked {s : ContractState} {i : EnvId} {e : Envelope}
    (hget : mapGet (envelopesMap s) i = some e) (hrev : e.revoked = true) (op : Op) :
    mapGet (envelopesMap (applyOp s op)) i = some e := by
  cases op with
  | createOp c j b a sh u v ex =>
    rcases hres : create_envelope s c j b a sh u v ex with err | rs
    · simpa [applyOp, hres] using hget
    · obtain ⟨r, s'⟩ := rs
      simp only [applyOp, hres]
      obtain ⟨o, _, _, _, hnone, hs'⟩ := create_ok_shape hres
      subst hs'
      by_cases hji : i = j
      · subst hji
        rw [hget] at hnone
        cases hnone
      · simp only [envelopesMap, Option.getD_some]
        rw [mapGet_mapSet_ne _ _ hji]
        exact hget
  | claimOp c j sec now =>
    rcases hres : claim s c j sec now with err | rs
    · simpa [applyOp, hres] using hget
    · obtain ⟨r, s'⟩ := rs
      simp only [applyOp, hres]
      obtain ⟨e', hget', hrevf', hcase⟩ := claim_ok_shape hres
      by_cases hji : i = j
      · subst hji
        rw [hget] at hget'
        cases hget'
        rw [hrev] at hrevf'
        cases hrevf'
      · rcases hcase with rfl | ⟨_, hs'⟩
        · exact hget
        · subst hs'
          simp only [envelopesMap, Option.getD_some]
          rw [mapGet_mapSet_ne _ _ hji]
          exact hget
  | revokeOp c j =>
    rcases hres : revoke_envelope s c j with err | rs
    · simpa [applyOp, hres] using hget
    · obtain ⟨r, s'⟩ := rs
      simp only [applyOp, hres]
      obtain ⟨o, e', _, _, hget', hrevf', _, hs'⟩ := revoke_ok_shape hres
      by_cases hji : i = j
      · subst hji
        rw [hget] at hget'
        cases hget'
        rw [hrev] at hrevf'
        cases hrevf'
      · subst hs'
        simp only [envelopesMap, Option.getD_some]
        rw [mapGet_mapSet_ne _ _ hji]
        exact hget
  | refundOp c j now =>
    rcases hres : refund_owner s c j now with err | rs
    · simpa [applyOp, hres] using hget
    · obtain ⟨r, s'⟩ := rs
      simp only [applyOp, hres]
      obtain ⟨e', hget', hrevf', hcase⟩ := refund_ok_shape hres
      by_cases hji : i = j
      · subst hji
        rw [hget] at hget'
        cases hget'
        rw [hrev] at hrevf'
        cases hrevf'
      · rcases hcase with rfl | hs'
        · exact hget
        · subst hs'
          simp only [envelopesMap, Option.getD_some]
          rw [mapGet_mapSet_ne _ _ hji]
          exact hget

theorem applyOps_preserves_revoked {s : ContractState} {i : EnvId} {e : Envelope}
    (hget : mapGet (envelopesMap s) i = some e) (hrev : e.revoked = true)
    (ops : List Op) : mapGet (envelopesMap (applyOps s ops)) i = some e := by
  induction ops generalizing s with
  | nil => exact hget
  | cons op rest ih =>
    exact ih (applyOp_preserves_revoked hget hrev op)

/-! ### Claim theorems -/

/-- Claim C3: the vested fraction computed during `claim` equals 10000 when
the schedule is empty; otherwise it is the saturating sum of `bp` over
exactly the slices with `ts ≤ now`, clamped to at most 10000; and the result
does not depend on the order of the slices in the schedule. -/
theorem C3_vested_fraction_definition :
    (∀ t : Int, vestedFraction [] t = 10000) ∧
    (∀ (l : List VestSlice) (t : Int), l ≠ [] →
      vestedFraction l t =
        min (satSum ((l.filter (fun vs => vs.ts ≤ t)).map VestSlice.bp)) 10000) ∧
    (∀ (l₁ l₂ : List VestSlice) (t : Int), l₁.Perm l₂ →
      vestedFraction l₁ t = vestedFraction l₂ t) := by
  refine ⟨fun t => rfl, fun l t h => ?_, fun l₁ l₂ t hp => vestedFraction_perm hp t⟩
  rw [vestedFraction_eq_min l t h, satSum_eq_min]
  omega

/-- Witness for C3 on a concrete nonempty schedule and a concrete
permutation. -/
theorem C3_vested_fraction_definition_witness :
    vestedFraction [⟨5, 4000⟩, ⟨10, 3000⟩] 7 =
      min (satSum (([(⟨5, 4000⟩ : VestSlice), ⟨10, 3000⟩].filter
        (fun vs => vs.ts ≤ (7 : Int))).map VestSlice.bp)) 10000 ∧
    vestedFraction [⟨5, 4000⟩, ⟨10, 3000⟩] 7 = vestedFraction [⟨10, 3000⟩, ⟨5, 4000⟩] 7 := by
  constructor
  · exact C3_vested_fraction_definition.2.1 [⟨5, 4000⟩, ⟨10, 3000⟩] 7 (by decide)
  · exact C3_vested_fraction_definition.2.2 [⟨5, 4000⟩, ⟨10, 3000⟩] [⟨10, 3000⟩, ⟨5, 4000⟩] 7
      (List.Perm.swap _ _ _)

/-- Claim C9: for a fixed schedule the vested fraction is monotonically
non-decreasing in `now`, and for every schedule and time it lies in
`[0, 10000]` (the lower bound is inherent to the `Nat`-valued result). -/
theorem C9_vested_fraction_monotone_and_range :
    (∀ (l : List VestSlice) (t₁ t₂ : Int), t₁ ≤ t₂ →
      vestedFraction l t₁ ≤ vestedFraction l t₂) ∧
    (∀ (l : List VestSlice) (t : Int), vestedFraction l t ≤ 10000) :=
  ⟨fun l _ _ h => vestedFraction_mono l h, fun l t => vestedFraction_le l t⟩

/-- Witness for C9 at a concrete over-subscribed schedule and concrete
times. -/
theorem C9_vested_fraction_monotone_and_range_witness :
    vestedFraction [⟨5, 9000⟩, ⟨10, 9000⟩] 6 ≤ vestedFraction [⟨5, 9000⟩, ⟨10, 9000⟩] 11 ∧
    vestedFraction [⟨5, 9000⟩, ⟨10, 9000⟩] 11 ≤ 10000 :=
  ⟨C9_vested_fraction_monotone_and_range.1 [⟨5, 9000⟩, ⟨10, 9000⟩] 6 11 (by decide),
   C9_vested_fraction_monotone_and_range.2 [⟨5, 9000⟩, ⟨10, 9000⟩] 11⟩

/-- Claim C4: when `claim` passes the lookup, revoked, authorization,
secret and time-lock checks but the vested amount does not exceed the
already-claimed amount, the call returns `0` and the whole contract state is
returned unchanged. -/
theorem C4_claim_idempotent_noop (s : ContractState) (c : Address) (i : EnvId)
    (sec : Bytes32) (now : Nat) (e : Envelope)
    (hget : mapGet (envelopesMap s) i = some e)
    (hrev : e.revoked = false)
    (hben : c = e.beneficiary)
    (hsec : sec = e.secret_hash)
    (hlock : ∀ u, e.unlock_ts = some u → ¬i64ofU64 now < u)
    (hvest : vestedAmountI128 e.amount (vestedFraction e.vesting (i64ofU64 now)) ≤ e.claimed) :
    claim s c i sec now = .ok (0, s) := by
  simp only [claim, hget, hrev, hben, hsec]
  rcases hu : e.unlock_ts with _ | u
  · simp [hvest]
  · simp [hlock u hu, hvest]

/-- Witness for C4: a half-vested envelope whose claimed amount already
equals the vested amount. -/
theorem C4_claim_idempotent_noop_witness :
    claim ⟨some 0, some [], some 0, some 0,
        some [(1, ⟨2, 1000, 5, some 20, [⟨100, 5000⟩], 500, none, false⟩)]⟩ 2 1 5 150 =
      .ok (0, ⟨some 0, some [], some 0, some 0,
        some [(1, ⟨2, 1000, 5, some 20, [⟨100, 5000⟩], 500, none, false⟩)]⟩) :=
  C4_claim_idempotent_noop _ 2 1 5 150 ⟨2, 1000, 5, some 20, [⟨100, 5000⟩], 500, none, false⟩
    rfl rfl rfl rfl
    (by intro u hu; cases hu; decide)
    (by decide)

/-- Claim C5: for an envelope with an expiry that has passed and not yet
revoked, `refund_owner` called with owner authorization either returns `0`
with no state change (when nothing is left unclaimed) or returns
`amount - claimed`, sets `claimed = amount` and `revoked = true`, and leaves
every other field and every other envelope unchanged.  The hypotheses
`0 ≤ claimed ≤ amount < 2^127` are the stored-`i128` range together with
the registry invariant. -/
theorem C5_refund_effect (s : ContractState) (c o : Address) (i : EnvId) (now : Nat)
    (e : Envelope) (exp : Int)
    (howner : s.owner = some o)
    (hc : c = o)
    (hget : mapGet (envelopesMap s) i = some e)
    (hexp : e.expiry_ts = some exp)
    (hnow : ¬i64ofU64 now < exp)
    (hrev : e.revoked = false)
    (hcl0 : 0 ≤ e.claimed)
    (hcla : e.claimed ≤ e.amount)
    (hamt : e.amount < 2 ^ 127) :
    (e.amount - e.claimed ≤ 0 → refund_owner s c i now = .ok (0, s)) ∧
    (0 < e.amount - e.claimed →
      refund_owner s c i now = .ok (e.amount - e.claimed,
        { s with envelopes := some (mapSet (envelopesMap s) i
            { e with claimed := e.amount, revoked := true }) }) ∧
      (∀ j, j ≠ i →
        mapGet (mapSet (envelopesMap s) i { e with claimed := e.amount, revoked := true }) j
          = mapGet (envelopesMap s) j)) := by
  have hwrap : wrap128 (e.amount - e.claimed) = e.amount - e.claimed :=
    wrap128_eq_of_fits (by omega) (by omega)
  constructor
  · intro hle
    simp only [refund_owner, howner, hc, hget, hexp, hrev]
    simp [hnow, hwrap, hle]
  · intro hlt
    refine ⟨?_, fun j hj => mapGet_mapSet_ne _ _ hj⟩
    simp only [refund_owner, howner, hc, hget, hexp, hrev]
    simp [hnow, hwrap]
    omega

/-- Witness for C5: the paying branch, on scenario E of the spec
(`amount = 1000`, `claimed = 300`, expired). -/
theorem C5_refund_effect_witness :
    refund_owner ⟨some 0, some [], some 0, some 0,
        some [(1, ⟨2, 1000, 5, none, [], 300, some 100, false⟩)]⟩ 0 1 150 =
      .ok (700, ⟨some 0, some [], some 0, some 0,
        some [(1, ⟨2, 1000, 5, none, [], 1000, some 100, true⟩)]⟩) := by
  have h := (C5_refund_effect
    ⟨some 0, some [], some 0, some 0, some [(1, ⟨2, 1000, 5, none, [], 300, some 100, false⟩)]⟩
    0 0 1 150 ⟨2, 1000, 5, none, [], 300, some 100, false⟩ 100
    rfl rfl rfl rfl (by decide) rfl (by decide) (by decide) (by decide)).2 (by decide)
  exact h.1

/-- Claim C1: every successful `create_envelope`, `claim`, `revoke_envelope`
or `refund_owner` preserves the registry invariant `0 ≤ claimed ≤ amount`:
creation initializes `claimed = 0` with `amount > 0`, `claim` only raises
`claimed` to the vested amount (which never exceeds `amount`),
`refund_owner` sets `claimed = amount`, and `revoke_envelope` leaves
`claimed` untouched. -/
theorem C1_registry_invariant (s : ContractState) (hs : RegOk s) :
    (∀ c i b a sh u v ex r s',
      create_envelope s c i b a sh u v ex = .ok (r, s') → RegOk s') ∧
    (∀ c i sec now r s', claim s c i sec now = .ok (r, s') → RegOk s') ∧
    (∀ c i r s', revoke_envelope s c i = .ok (r, s') → RegOk s') ∧
    (∀ c i now r s', refund_owner s c i now = .ok (r, s') → RegOk s') := by
  refine ⟨?_, ?_, ?_, ?_⟩
  · intro c i b a sh u v ex r s' h
    obtain ⟨o, _, _, ha, _, hs'⟩ := create_ok_shape h
    subst hs'
    exact RegOk_set hs ⟨le_refl 0, le_of_lt ha⟩
  · intro c i sec now r s' h
    obtain ⟨e, hget, _, hcase⟩ := claim_ok_shape h
    obtain ⟨h1, h2⟩ := hs i e hget
    rcases hcase with rfl | ⟨hlt, hs'⟩
    · exact hs
    · subst hs'
      have hv0 : (0 : Int) ≤ vestedAmountI128 e.amount (vestedFraction e.vesting (i64ofU64 now)) := by
        omega
      have hva : vestedAmountI128 e.amount (vestedFraction e.vesting (i64ofU64 now)) ≤ e.amount :=
        vestedAmountI128_le (by omega) (vestedFraction_le _ _)
      exact RegOk_set hs ⟨hv0, hva⟩
  · intro c i r s' h
    obtain ⟨o, e, _, _, hget, _, _, hs'⟩ := revoke_ok_shape h
    obtain ⟨h1, h2⟩ := hs i e hget
    subst hs'
    exact RegOk_set hs ⟨h1, h2⟩
  · intro c i now r s' h
    obtain ⟨e, hget, _, hcase⟩ := refund_ok_shape h
    obtain ⟨h1, h2⟩ := hs i e hget
    rcases hcase with rfl | hs'
    · exact hs
    · subst hs'
      exact RegOk_set hs ⟨le_trans h1 h2, le_refl e.amount⟩

/-- Witness for C1: starting from an initialized registry satisfying the
invariant, the state produced by a successful `create_envelope` satisfies
it too. -/
theorem C1_registry_invariant_witness :
    RegOk ⟨some 0, some [], some 0, some 0,
      some [(1, ⟨2, 1000, 5, none, [], 0, none, false⟩)]⟩ := by
  have hs0 : RegOk ⟨some 0, some [], some 0, some 0, some []⟩ := by
    intro i e h
    simp [envelopesMap, mapGet] at h
  exact (C1_registry_invariant ⟨some 0, some [], some 0, some 0, some []⟩ hs0).1
    0 1 2 1000 5 none [] none () _ rfl

/-- Claim C6: an envelope that is revoked stays revoked with unchanged
`claimed` across every sequence of `claim`, `revoke_envelope`,
`refund_owner` and `create_envelope` calls (the stored record stays exactly
the same), and every one of those operations aimed at the revoked envelope
fails before writing. -/
theorem C6_revocation_terminal (s : ContractState) (i : EnvId) (e : Envelope)
    (hget : mapGet (envelopesMap s) i = some e) (hrev : e.revoked = true) :
    (∀ ops : List Op, mapGet (envelopesMap (applyOps s ops)) i = some e) ∧
    (∀ c sec now, ∃ err, claim s c i sec now = .error err) ∧
    (∀ c, ∃ err, revoke_envelope s c i = .error err) ∧
    (∀ c now, ∃ err, refund_owner s c i now = .error err) ∧
    (∀ c b a sh u v ex, ∃ err, create_envelope s c i b a sh u v ex = .error err) := by
  refine ⟨fun ops => applyOps_preserves_revoked hget hrev ops, ?_, ?_, ?_, ?_⟩
  · intro c sec now
    rcases hres : claim s c i sec now with err | rs
    · exact ⟨err, rfl⟩
    · obtain ⟨r, s'⟩ := rs
      obtain ⟨e', hget', hrevf', _⟩ := claim_ok_shape hres
      rw [hget] at hget'
      cases hget'
      rw [hrev] at hrevf'
      cases hrevf'
  · intro c
    rcases hres : revoke_envelope s c i with err | rs
    · exact ⟨err, rfl⟩
    · obtain ⟨r, s'⟩ := rs
      obtain ⟨o, e', _, _, hget', hrevf', _, _⟩ := revoke_ok_shape hres
      rw [hget] at hget'
      cases hget'
      rw [hrev] at hrevf'
      cases hrevf'
  · intro c now
    rcases hres : refund_owner s c i now with err | rs
    · exact ⟨err, rfl⟩
    · obtain ⟨r, s'⟩ := rs
      obtain ⟨e', hget', hrevf', _⟩ := refund_ok_shape hres
      rw [hget] at hget'
      cases hget'
      rw [hrev] at hrevf'
      cases hrevf'
  · intro c b a sh u v ex
    rcases hres : create_envelope s c i b a sh u v ex with err | rs
    · exact ⟨err, rfl⟩
    · obtain ⟨r, s'⟩ := rs
      obtain ⟨o, _, _, _, hnone, _⟩ := create_ok_shape hres
      rw [hget] at hnone
      cases hnone

/-- Witness for C6: a concrete revoked envelope is untouched by a concrete
sequence of calls, and each targeted operation fails. -/
theorem C6_revocation_terminal_witness :
    mapGet (envelopesMap (applyOps
      ⟨some 0, some [], some 0, some 0,
        some [(1, ⟨2, 1000, 5, none, [], 300, some 100, true⟩)]⟩
      [Op.claimOp 2 1 5 150, Op.revokeOp 0 1, Op.refundOp 0 1 150,
       Op.createOp 0 1 3 50 7 none [] none])) 1 =
      some ⟨2, 1000, 5, none, [], 300, some 100, true⟩ ∧
    (∃ err, claim ⟨some 0, some [], some 0, some 0,
      some [(1, ⟨2, 1000, 5, none, [], 300, some 100, true⟩)]⟩ 2 1 5 150 = .error err) := by
  have h := C6_revocation_terminal
    ⟨some 0, some [], some 0, some 0,
      some [(1, ⟨2, 1000, 5, none, [], 300, some 100, true⟩)]⟩
    1 ⟨2, 1000, 5, none, [], 300, some 100, true⟩ rfl rfl
  exact ⟨h.1 [Op.claimOp 2 1 5 150, Op.revokeOp 0 1, Op.refundOp 0 1 150,
    Op.createOp 0 1 3 50 7 none [] none], h.2.1 2 5 150⟩

/-- Claim C10: on a state where `initialize` has never run (no storage key
present), `get_envelope` and `claim` fail with the not-found error for every
identifier, while `create_envelope`, `revoke_envelope` and `refund_owner`
fail because no owner identity is stored. -/
theorem C10_uninitialized_behaviour (s : ContractState) (h : Uninitialized s) :
    (∀ i, get_envelope s i = .error .notFound) ∧
    (∀ c i sec now, claim s c i sec now = .error .notFound) ∧
    (∀ c i b a sh u v ex, create_envelope s c i b a sh u v ex = .error .ownerNotSet) ∧
    (∀ c i, revoke_envelope s c i = .error .ownerNotSet) ∧
    (∀ c i now, refund_owner s c i now = .error .ownerNotSet) := by
  obtain ⟨how, henv⟩ := h
  have hmap : envelopesMap s = [] := by simp [envelopesMap, henv]
  refine ⟨fun i => ?_, fun c i sec now => ?_, fun c i b a sh u v ex => ?_,
    fun c i => ?_, fun c i now => ?_⟩
  · simp [get_envelope, hmap, mapGet]
  · simp [claim, hmap, mapGet]
  · simp [create_envelope, how]
  · simp [revoke_envelope, how]
  · simp [refund_owner, how]

/-- Witness for C10 at the all-empty storage state and concrete arguments. -/
theorem C10_uninitialized_behaviour_witness :
    get_envelope ⟨none, none, none, none, none⟩ 1 = .error .notFound ∧
    claim ⟨none, none, none, none, none⟩ 2 1 5 0 = .error .notFound ∧
    create_envelope ⟨none, none, none, none, none⟩ 0 1 2 1000 5 none [] none
      = .error .ownerNotSet ∧
    revoke_envelope ⟨none, none, none, none, none⟩ 0 1 = .error .ownerNotSet ∧
    refund_owner ⟨none, none, none, none, none⟩ 0 1 0 = .error .ownerNotSet := by
  have h := C10_uninitialized_behaviour ⟨none, none, none, none, none⟩ ⟨rfl, rfl⟩
  exact ⟨h.1 1, h.2.1 2 1 5 0, h.2.2.1 0 1 2 1000 5 none [] none, h.2.2.2.1 0 1,
    h.2.2.2.2 0 1 0⟩

/-- Counterexample to C2 as stated: on a revoked envelope whose beneficiary
is `2`, a claim by caller `99` fails with `revoked`, not `unauthorized` —
the source checks `revoked` before `require_auth`. -/
theorem C2_counterexample :
    claim ⟨some 0, some [], some 0, some 0,
        some [(1, ⟨2, 1000, 5, none, [], 0, none, true⟩)]⟩ 99 1 5 0 = .error .revoked ∧
    Err.revoked ≠ Err.unauthorized :=
  ⟨rfl, by decide⟩

/-- Claim C2 (amended): the checks of `claim` are applied in the source
order — `NotFound`, then `Revoked`, then `Unauthorized`, then
`InvalidSecret`, then `Locked`; in particular a claim by a non-beneficiary
on a revoked envelope fails with `Revoked`. -/
theorem C2_claim_check_order (s : ContractState) (c : Address) (i : EnvId)
    (sec : Bytes32) (now : Nat) :
    (mapGet (envelopesMap s) i = none → claim s c i sec now = .error .notFound) ∧
    (∀ e, mapGet (envelopesMap s) i = some e → e.revoked = true →
      claim s c i sec now = .error .revoked) ∧
    (∀ e, mapGet (envelopesMap s) i = some e → e.revoked = false →
      c ≠ e.beneficiary → claim s c i sec now = .error .unauthorized) ∧
    (∀ e, mapGet (envelopesMap s) i = some e → e.revoked = false →
      c = e.beneficiary → sec ≠ e.secret_hash →
      claim s c i sec now = .error .invalidSecret) ∧
    (∀ e u, mapGet (envelopesMap s) i = some e → e.revoked = false →
      c = e.beneficiary → sec = e.secret_hash → e.unlock_ts = some u →
      i64ofU64 now < u → claim s c i sec now = .error .locked) := by
  refine ⟨fun h => by simp [claim, h],
    fun e hget hrev => by simp [claim, hget, hrev],
    fun e hget hrev hben => by simp [claim, hget, hrev, hben],
    fun e hget hrev hben hsec => by simp [claim, hget, hrev, hben, hsec],
    fun e u hget hrev hben hsec hu hlt => by simp [claim, hget, hrev, hben, hsec, hu, hlt]⟩

/-- Witness for C2 (amended): the revoked-before-authorization branch and
the authorization branch at concrete states. -/
theorem C2_claim_check_order_witness :
    claim ⟨some 0, some [], some 0, some 0,
        some [(1, ⟨2, 1000, 5, none, [], 0, none, true⟩)]⟩ 99 1 5 0 = .error .revoked ∧
    claim ⟨some 0, some [], some 0, some 0,
        some [(1, ⟨2, 1000, 5, none, [], 0, none, false⟩)]⟩ 99 1 5 0 = .error .unauthorized := by
  constructor
  · exact (C2_claim_check_order ⟨some 0, some [], some 0, some 0,
      some [(1, ⟨2, 1000, 5, none, [], 0, none, true⟩)]⟩ 99 1 5 0).2.1
      ⟨2, 1000, 5, none, [], 0, none, true⟩ rfl rfl
  · exact (C2_claim_check_order ⟨some 0, some [], some 0, some 0,
      some [(1, ⟨2, 1000, 5, none, [], 0, none, false⟩)]⟩ 99 1 5 0).2.2.1
      ⟨2, 1000, 5, none, [], 0, none, false⟩ rfl rfl (by decide)

/-- Counterexample to C7 as stated: creating an envelope with the unsigned
64-bit unlock timestamp `2^63` stores and returns `-(2^63)` — the `as i64`
cast is not the identity on values at or above `2^63`, so the round trip is
not verbatim for every unsigned 64-bit timestamp. -/
theorem C7_counterexample :
    create_envelope ⟨some 0, some [], some 0, some 0, some []⟩ 0 1 2 1000 5
        (some (2 ^ 63)) [] none =
      .ok ((), ⟨some 0, some [], some 0, some 0,
        some [(1, ⟨2, 1000, 5, some (-(2 ^ 63 : Int)), [], 0, none, false⟩)]⟩) ∧
    get_envelope ⟨some 0, some [], some 0, some 0,
        some [(1, ⟨2, 1000, 5, some (-(2 ^ 63 : Int)), [], 0, none, false⟩)]⟩ 1 =
      .ok ⟨2, 1000, 5, some (-(2 ^ 63 : Int)), [], 0, none, false⟩ ∧
    some (-(2 ^ 63 : Int)) ≠ some (((2 ^ 63 : Nat) : Int)) := by
  refine ⟨?_, rfl, by decide⟩
  simp [create_envelope, envelopesMap, mapGet, mapSet]
  decide

/-- Claim C7 (amended): after a successful `create_envelope`, `get_envelope`
returns the supplied beneficiary, amount, secret hash and vesting schedule
verbatim with `claimed = 0` and `revoked = false`; the optional unsigned
64-bit timestamps are returned reinterpreted as signed 64-bit values
(`u64 as i64` two's-complement cast), which is the identity exactly on
values below `2^63`. -/
theorem C7_create_get_roundtrip (s : ContractState) (c : Address) (i : EnvId)
    (b : Address) (a : Int) (sh : Bytes32) (u : Option Nat) (v : List VestSlice)
    (ex : Option Nat) (r : Unit) (s' : ContractState)
    (h : create_envelope s c i b a sh u v ex = .ok (r, s')) :
    get_envelope s' i = .ok ⟨b, a, sh, u.map i64ofU64, v, 0, ex.map i64ofU64, false⟩ ∧
    (∀ n, n < 2 ^ 63 → i64ofU64 n = n) := by
  obtain ⟨o, _, _, _, _, hs'⟩ := create_ok_shape h
  subst hs'
  refine ⟨?_, fun n hn => i64ofU64_eq_of_lt hn⟩
  simp [get_envelope, envelopesMap, mapGet_mapSet_self]

/-- Witness for C7 (amended) at concrete small timestamps. -/
theorem C7_create_get_roundtrip_witness :
    get_envelope ⟨some 0, some [], some 0, some 0,
      some [(1, ⟨2, 1000, 5, some (5 : Int), [], 0, some (9 : Int), false⟩)]⟩ 1 =
      .ok ⟨2, 1000, 5, (some 5).map i64ofU64, [], 0, (some 9).map i64ofU64, false⟩ :=
  (C7_create_get_roundtrip ⟨some 0, some [], some 0, some 0, some []⟩ 0 1 2 1000 5
    (some 5) [] (some 9) () _ rfl).1

/-- Counterexample to C8 as stated: at `amount = i128::MAX` and a fully
vested fraction the intermediate product does not fit in `i128`, and the
wrapped computation does not equal the exact floor. -/
theorem C8_counterexample :
    ¬i128Fits (((2 : Int) ^ 127 - 1) * 10000) ∧
    vestedAmountI128 ((2 : Int) ^ 127 - 1) 10000 ≠
      Int.fdiv (((2 : Int) ^ 127 - 1) * 10000) 10000 := by
  constructor
  · decide
  · decide

/-- Claim C8 (amended): whenever the product `amount * fraction` fits in
`i128` (for a nonnegative amount and a fraction in `[0, 10000]`), `claim`'s
arithmetic is exact: the product does not overflow and the computed vested
amount equals `floor(amount * fraction / 10000)`. -/
theorem C8_exact_arithmetic (amount : Int) (f : Nat) (h0 : 0 ≤ amount)
    (_hf : f ≤ 10000) (hfit : amount * (f : Int) < 2 ^ 127) :
    i128Fits (amount * (f : Int)) ∧
    vestedAmountI128 amount f = Int.fdiv (amount * (f : Int)) 10000 := by
  have hp : (0 : Int) ≤ amount * (f : Int) := by positivity
  refine ⟨⟨by omega, hfit⟩, ?_⟩
  unfold vestedAmountI128
  rw [wrap128_eq_of_fits (by omega) hfit, Int.tdiv_eq_ediv hp (by norm_num),
    Int.fdiv_eq_ediv _ (by norm_num)]

/-- Witness for C8 (amended): `1000 * 5000 / 10000 = 500`, computed both
ways. -/
theorem C8_exact_arithmetic_witness :
    i128Fits ((1000 : Int) * ((5000 : Nat) : Int)) ∧
    vestedAmountI128 1000 5000 = Int.fdiv ((1000 : Int) * ((5000 : Nat) : Int)) 10000 :=
  C8_exact_arithmetic 1000 5000 (by decide) (by decide) (by decide)

end HashLockedEnvelopes
